import Mathlib

/-!
Verification development for the intake validation and relay pipeline:
contact/join intake workers, transit broker and sheet logger.

The JavaScript handlers are embedded shallowly: strings are Lean strings
(lists of characters), JSON values are an inductive Value type, fallible
validation is Except, HTTP handling is a pure function from the request
data (plus explicit parameters for the nondeterministic parts: the JSON
parser builtin, the downstream fetch outcome, the clock) to the pair of
status code and response body.
-/

open scoped List

namespace Ops

/-! ## Character classes used by the workers' regular expressions -/

/-- Control characters replaced by a space: the class U+0000 to U+001F plus
U+007F (regex RE_CTRL in the workers). -/
def jsIsCtrl (c : Char) : Bool := c.toNat ≤ 0x1F || c.toNat == 0x7F

/-- Bidirectional override characters stripped by the sanitizer: U+200E,
U+200F, U+202A to U+202E, U+2066 to U+2069 (regex RE_BIDI). -/
def jsIsBidi (c : Char) : Bool :=
  c.toNat == 0x200E || c.toNat == 0x200F ||
  (0x202A ≤ c.toNat && c.toNat ≤ 0x202E) ||
  (0x2066 ≤ c.toNat && c.toNat ≤ 0x2069)

/-- JavaScript regex word characters, the class of backslash-w:
A to Z, a to z, 0 to 9 and the underscore. -/
def jsIsWord (c : Char) : Bool :=
  ('a' ≤ c && c ≤ 'z') || ('A' ≤ c && c ≤ 'Z') || ('0' ≤ c && c ≤ '9') || c == '_'

/-- JavaScript regex whitespace, the class of backslash-s, which is also the
set removed by String.prototype.trim: tab, line feed, vertical tab, form
feed, carriage return, space, no-break space, Ogham space mark, the
U+2000 to U+200A range, line and paragraph separators, narrow no-break
space, medium mathematical space, ideographic space and the byte order
mark. -/
def jsIsSpace (c : Char) : Bool :=
  c.toNat == 0x09 || c.toNat == 0x0A || c.toNat == 0x0B || c.toNat == 0x0C ||
  c.toNat == 0x0D || c.toNat == 0x20 || c.toNat == 0xA0 || c.toNat == 0x1680 ||
  (0x2000 ≤ c.toNat && c.toNat ≤ 0x200A) ||
  c.toNat == 0x2028 || c.toNat == 0x2029 || c.toNat == 0x202F ||
  c.toNat == 0x205F || c.toNat == 0x3000 || c.toNat == 0xFEFF

/-- Number of UTF-16 code units a character occupies; JavaScript's
String.prototype.length counts these units. -/
def utf16Units (c : Char) : Nat := if c.toNat < 0x10000 then 1 else 2

/-- JavaScript string length: the number of UTF-16 code units. -/
def utf16Len (s : String) : Nat := (s.data.map utf16Units).sum

/-- UTF-8 encoded size of one character, as produced by TextEncoder. -/
def utf8CharLen (c : Char) : Nat :=
  if c.toNat < 0x80 then 1
  else if c.toNat < 0x800 then 2
  else if c.toNat < 0x10000 then 3
  else 4

/-- The byteLen helper of the workers: the UTF-8 encoded byte length of a
string, via TextEncoder. -/
def utf8Len (s : String) : Nat := (s.data.map utf8CharLen).sum

/-! ## JavaScript trim and parseInt -/

/-- Leading-whitespace removal over a character list. -/
def trimLeftChars (l : List Char) : List Char := l.dropWhile jsIsSpace

/-- Trailing-whitespace removal over a character list. -/
def trimRightChars (l : List Char) : List Char :=
  (l.reverse.dropWhile jsIsSpace).reverse

/-- JavaScript String.prototype.trim over a character list. -/
def jsTrimChars (l : List Char) : List Char := trimRightChars (trimLeftChars l)

/-- JavaScript String.prototype.trim. -/
def jsTrim (s : String) : String := String.mk (jsTrimChars s.data)

/-- Decimal digit run to a natural number. -/
def digitsToNat (l : List Char) : Nat :=
  l.foldl (fun a c => a * 10 + (c.toNat - 48)) 0

/-- JavaScript parseInt with radix 10: skip leading whitespace, an optional
sign, then the maximal run of decimal digits; none models NaN (no digit). -/
def jsParseInt10 (s : String) : Option Int :=
  let l := s.data.dropWhile jsIsSpace
  match l with
  | '-' :: rest =>
    let ds := rest.takeWhile Char.isDigit
    if ds.isEmpty then none else some (-(digitsToNat ds : Int))
  | '+' :: rest =>
    let ds := rest.takeWhile Char.isDigit
    if ds.isEmpty then none else some (digitsToNat ds : Int)
  | _ =>
    let ds := l.takeWhile Char.isDigit
    if ds.isEmpty then none else some (digitsToNat ds : Int)

/-- The workers' toInt helper: parseInt(String(s), 10) || 0, so NaN (and 0
itself) collapse to 0. -/
def toInt (s : String) : Int :=
  match jsParseInt10 s with
  | none => 0
  | some n => n

/-- The JavaScript idiom (x || d) for an optional environment string: an
unset variable and the empty string both fall back to the default. -/
def jsOrStr (o : Option String) (d : String) : String :=
  match o with
  | none => d
  | some s => if s == "" then d else s

/-! ## Sanitizer (sanitizeValue in both intake workers)

The string pipeline follows the source order: NFKC normalization, control
characters to spaces, bidi characters removed, HTML tags stripped, inline
handler patterns stripped, javascript: URIs stripped, trim. -/

/-- JavaScript String.prototype.normalize with form NFKC. Modelled as the
identity, which is exact on NFKC-invariant strings; every concrete input
below, and every string quantified over in the idempotence theorem, is
ASCII and hence NFKC-invariant. -/
def nfkcNormalize (l : List Char) : List Char := l

/-- One step of the replace of RE_CTRL by a space. -/
def ctrlToSpace (c : Char) : Char := if jsIsCtrl c then ' ' else c

/-- Global replace of the lazy tag pattern (less-than, any run of non
greater-than characters, greater-than) by the empty string: from each
less-than sign with some later greater-than sign, everything up to the
first greater-than sign is removed; a less-than sign with no later
greater-than sign never matches. Fuel-based scan; the wrapper passes the
list length, which is sufficient fuel. -/
def stripTagsGo : Nat → List Char → List Char
  | 0, l => l
  | _, [] => []
  | Nat.succ fuel, c :: rest =>
    if c == '<' then
      if '>' ∈ rest then
        stripTagsGo fuel ((rest.dropWhile (fun d => d != '>')).drop 1)
      else
        c :: rest
    else
      c :: stripTagsGo fuel rest

/-- The tag-stripping replace of the sanitizer. -/
def stripTags (l : List Char) : List Char := stripTagsGo l.length l

/-- Attempted match of the inline-handler pattern (word boundary, the
letters o n case-insensitively, one or more word characters, optional
whitespace, equals sign) at the head of the list; the word boundary is
checked by the caller. Returns the matched length. -/
def handlerMatchLen (l : List Char) : Option Nat :=
  match l with
  | c1 :: c2 :: rest =>
    if (c1 == 'o' || c1 == 'O') && (c2 == 'n' || c2 == 'N') then
      let w := rest.takeWhile jsIsWord
      if w.isEmpty then none
      else
        let afterW := rest.dropWhile jsIsWord
        let sp := afterW.takeWhile jsIsSpace
        match afterW.dropWhile jsIsSpace with
        | '=' :: _ => some (2 + w.length + sp.length + 1)
        | _ => none
    else none
  | _ => none

/-- Global replace of the inline-handler pattern by the empty string. The
boolean tracks whether the previous retained character is a word
character, which decides the word boundary; after a removed match the
previous character is the equals sign, a non-word character. -/
def stripHandlersGo : Nat → Bool → List Char → List Char
  | 0, _, l => l
  | _, _, [] => []
  | Nat.succ fuel, prevWord, c :: rest =>
    if prevWord then
      c :: stripHandlersGo fuel (jsIsWord c) rest
    else
      match handlerMatchLen (c :: rest) with
      | some n => stripHandlersGo fuel false ((c :: rest).drop n)
      | none => c :: stripHandlersGo fuel (jsIsWord c) rest

/-- The inline-handler stripping replace of the sanitizer. -/
def stripHandlers (l : List Char) : List Char := stripHandlersGo l.length false l

/-- Case-insensitive match of a lowercase pattern against a prefix of the
list, returning the remainder. -/
def ciPrefixDrop : List Char → List Char → Option (List Char)
  | [], l => some l
  | _ :: _, [] => none
  | p :: ps, c :: cs => if c.toLower == p then ciPrefixDrop ps cs else none

/-- Attempted match of the pattern (the letters of javascript
case-insensitively, optional whitespace, colon) at the head of the list,
returning the matched length. -/
def jsUriMatchLen (l : List Char) : Option Nat :=
  match ciPrefixDrop "javascript".data l with
  | none => none
  | some rest =>
    let sp := rest.takeWhile jsIsSpace
    match rest.dropWhile jsIsSpace with
    | ':' :: _ => some (10 + sp.length + 1)
    | _ => none

/-- Global replace of the javascript: URI pattern by the empty string. -/
def stripJsGo : Nat → List Char → List Char
  | 0, l => l
  | _, [] => []
  | Nat.succ fuel, c :: rest =>
    match jsUriMatchLen (c :: rest) with
    | some n => stripJsGo fuel ((c :: rest).drop n)
    | none => c :: stripJsGo fuel rest

/-- The javascript: URI stripping replace of the sanitizer. -/
def stripJs (l : List Char) : List Char := stripJsGo l.length l

/-- The sanitizer's string branch over character lists, in source order. -/
def sanitizeChars (l : List Char) : List Char :=
  jsTrimChars (stripJs (stripHandlers (stripTags
    (((nfkcNormalize l).map ctrlToSpace).filter (fun c => !jsIsBidi c)))))

/-- The sanitizer's string branch: sanitizeValue applied to a string. -/
def sanitizeString (s : String) : String := String.mk (sanitizeChars s.data)

/-! ## JSON values

JavaScript values flowing through the pipeline.  Arrays and objects carry
their own list types so that all recursions stay structural and reduce in
the kernel.  Numbers are modelled as integers with decimal
stringification (no claim depends on non-integer numbers); object keys
are unique, as produced by JSON.parse. -/

mutual
inductive Value : Type where
  | vstr : String → Value
  | vnum : Int → Value
  | vbool : Bool → Value
  | vnull : Value
  | vundefined : Value
  | varr : VList → Value
  | vobj : VObj → Value
inductive VList : Type where
  | nil : VList
  | cons : Value → VList → VList
inductive VObj : Type where
  | nil : VObj
  | cons : String → Value → VObj → VObj
end

/-- Number of elements of a JavaScript array. -/
def vlistLength : VList → Nat
  | .nil => 0
  | .cons _ rest => vlistLength rest + 1

/-- First-match association lookup on an object (keys are unique). -/
def lookupVObj : VObj → String → Option Value
  | .nil, _ => none
  | .cons k v rest, key => if k == key then some v else lookupVObj rest key

/-- The keys of an object, in insertion order. -/
def vobjKeys : VObj → List String
  | .nil => []
  | .cons k _ rest => k :: vobjKeys rest

/-- JavaScript truthiness of a value (arrays and objects are always
truthy, the empty string, zero, false, null and undefined are falsy). -/
def jsTruthy : Value → Bool
  | .vstr s => s != ""
  | .vnum n => n != 0
  | .vbool b => b
  | .vnull => false
  | .vundefined => false
  | .varr _ => true
  | .vobj _ => true

/-- Whether typeof yields the string object: true for objects, arrays and
null. -/
def typeofIsObject : Value → Bool
  | .vobj _ => true
  | .varr _ => true
  | .vnull => true
  | _ => false

/-- Property access v[key] on a value, undefined when absent; named
(non-index) properties of arrays and primitives read as undefined. -/
def getProp (v : Value) (key : String) : Value :=
  match v with
  | .vobj kvs => (lookupVObj kvs key).getD .vundefined
  | _ => .vundefined

/-- The JavaScript in operator for a non-numeric key on an object or
array. -/
def hasKey (v : Value) (key : String) : Bool :=
  match v with
  | .vobj kvs => (lookupVObj kvs key).isSome
  | _ => false

/-- Object.keys: an object's own keys; for an array the element indices as
decimal strings. -/
def jsKeys : Value → List String
  | .vobj kvs => vobjKeys kvs
  | .varr xs => (List.range (vlistLength xs)).map (fun i => toString i)
  | _ => []

mutual
/-- JavaScript String(v) stringification. -/
def jsToString : Value → String
  | .vstr s => s
  | .vnum n => toString n
  | .vbool b => if b then "true" else "false"
  | .vnull => "null"
  | .vundefined => "undefined"
  | .vobj _ => "[object Object]"
  | .varr xs => arrJoinToString xs
/-- Array stringification: elements joined with commas. -/
def arrJoinToString : VList → String
  | .nil => ""
  | .cons v rest =>
    match rest with
    | .nil => elemToString v
    | .cons _ _ => elemToString v ++ "," ++ arrJoinToString rest
/-- Array elements stringify null and undefined to the empty string and
everything else as String(v). -/
def elemToString : Value → String
  | .vnull => ""
  | .vundefined => ""
  | .vstr s => s
  | .vnum n => toString n
  | .vbool b => if b then "true" else "false"
  | .vobj _ => "[object Object]"
  | .varr xs => arrJoinToString xs
end

mutual
/-- The sanitizer sanitizeValue: strings through the string pipeline,
arrays and objects recursively, everything else unchanged. -/
def sanitizeValue : Value → Value
  | .vstr s => .vstr (sanitizeString s)
  | .varr xs => .varr (sanitizeVList xs)
  | .vobj kvs => .vobj (sanitizeVObj kvs)
  | v => v
/-- sanitizeValue over array elements, preserving order and length. -/
def sanitizeVList : VList → VList
  | .nil => .nil
  | .cons v rest => .cons (sanitizeValue v) (sanitizeVList rest)
/-- sanitizeValue over object entries, preserving all keys. -/
def sanitizeVObj : VObj → VObj
  | .nil => .nil
  | .cons k v rest => .cons k (sanitizeValue v) (sanitizeVObj rest)
end

/-! ## Schema validator (validateAgainstSchema and the must helpers)

Shared between the contact worker and the join worker, which differ only
in the accepted form name and in the set of dispatched field types. -/

/-- A declared schema field: name, type tag, required flag, optional min
and max lengths, enum options (the JavaScript property named type is
called ftype here). -/
structure FieldSpec : Type where
  name : String
  ftype : String
  required : Bool
  min : Option Nat
  max : Option Nat
  options : List String

/-- The JavaScript idiom (f.min || d) on an optional numeric bound: unset
and zero both fall back to the default. -/
def jsOrNat (o : Option Nat) (d : Nat) : Nat :=
  match o with
  | none => d
  | some n => if n == 0 then d else n

/-- The CONTACT_SCHEMA of the contact intake worker. -/
def CONTACT_SCHEMA : List FieldSpec :=
  [⟨"Name", "string", true, some 1, some 200, []⟩,
   ⟨"Email", "email", true, none, none, []⟩,
   ⟨"Contact Number", "phone", false, some 0, some 40, []⟩,
   ⟨"Preferred Date", "date", false, none, none, []⟩,
   ⟨"Preferred Time", "time", false, none, none, []⟩,
   ⟨"What are you interested in?", "enum", true, none, none,
     ["Business Operations", "Contact Center", "IT Support", "Professionals"]⟩,
   ⟨"Comments", "string", false, some 0, some 5000, []⟩]

/-- The JOIN_SCHEMA of the join intake worker. -/
def JOIN_SCHEMA : List FieldSpec :=
  [⟨"Name", "string", true, some 1, some 200, []⟩,
   ⟨"Email", "email", true, none, none, []⟩,
   ⟨"Phone", "phone", false, some 0, some 40, []⟩,
   ⟨"Skills", "strArrayCapped", false, none, none, []⟩,
   ⟨"Education", "strArrayCapped", false, none, none, []⟩,
   ⟨"Certification", "strArrayCapped", false, none, none, []⟩,
   ⟨"Hobbies", "strArrayCapped", false, none, none, []⟩,
   ⟨"What are you interested in?", "enum", true, none, none,
     ["Business Operations", "Contact Center", "IT Support", "Professionals"]⟩,
   ⟨"Continued Education", "strArrayCapped", false, none, none, []⟩,
   ⟨"Experience", "strArrayCapped", false, none, none, []⟩,
   ⟨"Tell us about yourself", "string", false, some 0, some 5000, []⟩]

/-- The emptiness test used on field values: strict equality with
undefined, null or the empty string. -/
def isEmptyJS : Value → Bool
  | .vundefined => true
  | .vnull => true
  | .vstr s => s == ""
  | _ => false

/-- mustStr: the value must already be a string; it is sanitized again and
its UTF-16 length checked against the bounds. -/
def mustStr (v : Value) (min max : Nat) (field : String) : Except String String :=
  match v with
  | .vstr s =>
    if utf16Len (sanitizeString s) < min then .error (field ++ " too short")
    else if utf16Len (sanitizeString s) > max then .error (field ++ " too long")
    else .ok (sanitizeString s)
  | _ => .error ("invalid " ++ field)

/-- The permissive email shape: one or more characters that are neither
whitespace nor an at sign, one at sign, then a domain that again contains
neither whitespace nor an at sign and has a dot that is neither its first
nor its last character. -/
def emailShape (s : String) : Bool :=
  let l := s.data
  let localPart := l.takeWhile (fun c => c != '@')
  let rest := (l.dropWhile (fun c => c != '@')).drop 1
  l.contains '@' && !localPart.isEmpty &&
  localPart.all (fun c => !jsIsSpace c) &&
  rest.all (fun c => !jsIsSpace c && c != '@') &&
  !rest.isEmpty && ((rest.drop 1).dropLast.contains '.')

/-- mustEmail: String(v), the 3 to 254 length window via mustStr, then the
shape check. -/
def mustEmail (v : Value) (field : String) : Except String String :=
  match mustStr (.vstr (jsToString v)) 3 254 field with
  | .error e => .error e
  | .ok s => if emailShape s then .ok s else .error ("invalid " ++ field)

/-- The phone character class: plus, parentheses, hyphen, digits,
whitespace and dots. -/
def phoneChar (c : Char) : Bool :=
  c == '+' || c == '(' || c == ')' || c == '-' || c.isDigit || jsIsSpace c || c == '.'

/-- The permissive phone shape: at least four characters, all from the
phone class. -/
def phoneShape (s : String) : Bool :=
  s.data.length ≥ 4 && s.data.all phoneChar

/-- mustPhone: String(v), the 0 to max length window, then the shape check
on non-empty results. -/
def mustPhone (v : Value) (field : String) (max : Nat) : Except String String :=
  match mustStr (.vstr (jsToString v)) 0 max field with
  | .error e => .error e
  | .ok s => if s != "" && !phoneShape s then .error ("invalid " ++ field) else .ok s

/-- Strict date shape: four digits, hyphen, two digits, hyphen, two
digits. -/
def dateShape (s : String) : Bool :=
  match s.data with
  | [y1, y2, y3, y4, d1, m1, m2, d2, a1, a2] =>
    y1.isDigit && y2.isDigit && y3.isDigit && y4.isDigit && d1 == '-' &&
    m1.isDigit && m2.isDigit && d2 == '-' && a1.isDigit && a2.isDigit
  | _ => false

/-- Strict time shape: two digits, colon, two digits. -/
def timeShape (s : String) : Bool :=
  match s.data with
  | [h1, h2, c, m1, m2] => h1.isDigit && h2.isDigit && c == ':' && m1.isDigit && m2.isDigit
  | _ => false

/-- mustDate: String(v), the 0 to 20 length window, empty allowed, else the
strict date shape. -/
def mustDate (v : Value) (field : String) : Except String String :=
  match mustStr (.vstr (jsToString v)) 0 20 field with
  | .error e => .error e
  | .ok s =>
    if s == "" then .ok ""
    else if dateShape s then .ok s else .error ("invalid " ++ field)

/-- mustTime: String(v), the 0 to 20 length window, empty allowed, else the
strict time shape. -/
def mustTime (v : Value) (field : String) : Except String String :=
  match mustStr (.vstr (jsToString v)) 0 20 field with
  | .error e => .error e
  | .ok s =>
    if s == "" then .ok ""
    else if timeShape s then .ok s else .error ("invalid " ++ field)

/-- mustEnum: String(v), the 1 to 200 length window, then case-sensitive
membership in the declared options. -/
def mustEnum (v : Value) (options : List String) (field : String) : Except String String :=
  match mustStr (.vstr (jsToString v)) 1 200 field with
  | .error e => .error e
  | .ok s => if s ∈ options then .ok s else .error ("invalid " ++ field)

/-- The item loop of strArrayCapped: each element is stringified, pushed
through mustStr with the per-item cap, then byte-checked, and the running
byte total is checked; the first violation aborts with its index in the
message. The caps are the defaults of the source (50 items, 5000 bytes
per item, 20000 bytes in total), which every call site uses. -/
def strArrayItems (field : String) : VList → Nat → Nat → Except String (List String)
  | .nil, _, _ => .ok []
  | .cons x rest, i, total =>
    match mustStr (.vstr (jsToString x)) 0 5000 (field ++ "[" ++ toString i ++ "]") with
    | .error e => .error e
    | .ok s =>
      let n := utf8Len s
      if n > 5000 then .error (field ++ "[" ++ toString i ++ "] too large")
      else if total + n > 20000 then .error (field ++ " total size too large")
      else
        match strArrayItems field rest (i + 1) (total + n) with
        | .error e => .error e
        | .ok ss => .ok (s :: ss)

/-- strArrayCapped: falsy values become the empty array, non-arrays are
invalid, more than 50 items fail before any item is converted, otherwise
the item loop runs. -/
def strArrayCapped (v : Value) (field : String) : Except String (List String) :=
  if !jsTruthy v then .ok []
  else
    match v with
    | .varr xs =>
      if vlistLength xs > 50 then .error (field ++ " has too many items")
      else strArrayItems field xs 0 0
    | _ => .error ("invalid " ++ field)

/-- The contact worker's per-type dispatch (string, email, phone, date,
time, enum; anything else is an unknown type). -/
def contactFieldCheck (f : FieldSpec) (v : Value) : Except String Value :=
  match f.ftype with
  | "string" => (mustStr v (jsOrNat f.min 0) (jsOrNat f.max 5000) f.name).map Value.vstr
  | "email" => (mustEmail v f.name).map Value.vstr
  | "phone" => (mustPhone v f.name (jsOrNat f.max 40)).map Value.vstr
  | "date" => (mustDate v f.name).map Value.vstr
  | "time" => (mustTime v f.name).map Value.vstr
  | "enum" => (mustEnum v f.options f.name).map Value.vstr
  | t => .error ("unknown type: " ++ t)

/-- List of strings back to a JavaScript array value. -/
def strsToVList : List String → VList
  | [] => .nil
  | s :: rest => .cons (.vstr s) (strsToVList rest)

/-- The join worker's per-type dispatch (string, email, phone, enum,
strArrayCapped; anything else is an unknown type). -/
def joinFieldCheck (f : FieldSpec) (v : Value) : Except String Value :=
  match f.ftype with
  | "string" => (mustStr v (jsOrNat f.min 0) (jsOrNat f.max 5000) f.name).map Value.vstr
  | "email" => (mustEmail v f.name).map Value.vstr
  | "phone" => (mustPhone v f.name (jsOrNat f.max 40)).map Value.vstr
  | "enum" => (mustEnum v f.options f.name).map Value.vstr
  | "strArrayCapped" => (strArrayCapped v f.name).map (fun ss => Value.varr (strsToVList ss))
  | t => .error ("unknown type: " ++ t)

/-- Default substituted for a missing or empty optional field: the empty
array for array types, the empty string otherwise. -/
def fieldDefault (f : FieldSpec) : Value :=
  if f.ftype == "strArrayCapped" then .varr .nil else .vstr ""

/-- The strict allow-list pass over the input keys: the first key not
declared in the schema aborts validation. -/
def checkUnknownKeys (allowed : List String) : List String → Except String Unit
  | [] => .ok ()
  | k :: rest =>
    if k ∈ allowed then checkUnknownKeys allowed rest
    else .error ("unexpected field: " ++ k)

/-- The per-field loop, in schema order: required and empty fails, empty
optional fields get defaults, otherwise the worker's dispatch runs; the
first error aborts. -/
def validateFieldsWith (check : FieldSpec → Value → Except String Value)
    (fieldsV : Value) : List FieldSpec → Except String (List (String × Value))
  | [] => .ok []
  | f :: rest =>
    if f.required && isEmptyJS (getProp fieldsV f.name) then .error ("missing: " ++ f.name)
    else if isEmptyJS (getProp fieldsV f.name) then
      match validateFieldsWith check fieldsV rest with
      | .error e => .error e
      | .ok out => .ok ((f.name, fieldDefault f) :: out)
    else
      match check f (getProp fieldsV f.name) with
      | .error e => .error e
      | .ok w =>
        match validateFieldsWith check fieldsV rest with
        | .error e => .error e
        | .ok out => .ok ((f.name, w) :: out)

/-- validateAgainstSchema of the contact worker: form-name gate, unknown
key rejection, then the per-field loop. -/
def validateAgainstSchemaContact (formName : String) (schema : List FieldSpec)
    (fieldsV : Value) : Except String (List (String × Value)) :=
  if formName != "contact" then .error "wrong_form"
  else
    match checkUnknownKeys (schema.map (fun f => f.name)) (jsKeys fieldsV) with
    | .error e => .error e
    | .ok _ => validateFieldsWith contactFieldCheck fieldsV schema

/-- validateAgainstSchema of the join worker. -/
def validateAgainstSchemaJoin (formName : String) (schema : List FieldSpec)
    (fieldsV : Value) : Except String (List (String × Value)) :=
  if formName != "join" then .error "wrong_form"
  else
    match checkUnknownKeys (schema.map (fun f => f.name)) (jsKeys fieldsV) with
    | .error e => .error e
    | .ok _ => validateFieldsWith joinFieldCheck fieldsV schema

/-! ## enforceByteLimits -/

mutual
/-- The recursive walk of enforceByteLimits: strings are byte-checked
against the per-field cap, arrays and objects are walked, everything else
(including null, which is falsy) is skipped. -/
def walkLimit (maxB : Int) : Value → Except String Unit
  | .vstr s =>
    if (utf8Len s : Int) > maxB then
      .error ("field exceeds " ++ toString maxB ++ " bytes")
    else .ok ()
  | .varr xs => walkLimitVList maxB xs
  | .vobj kvs => walkLimitVObj maxB kvs
  | _ => .ok ()
/-- The walk over array elements. -/
def walkLimitVList (maxB : Int) : VList → Except String Unit
  | .nil => .ok ()
  | .cons v rest =>
    match walkLimit maxB v with
    | .error e => .error e
    | .ok _ => walkLimitVList maxB rest
/-- The walk over object values. -/
def walkLimitVObj (maxB : Int) : VObj → Except String Unit
  | .nil => .ok ()
  | .cons _ v rest =>
    match walkLimit maxB v with
    | .error e => .error e
    | .ok _ => walkLimitVObj maxB rest
end

/-- enforceByteLimits applied to the validated field map: the walk visits
each field value in order. -/
def enforceByteLimits (maxB : Int) : List (String × Value) → Except String Unit
  | [] => .ok ()
  | (_, v) :: rest =>
    match walkLimit maxB v with
    | .error e => .error e
    | .ok _ => enforceByteLimits maxB rest

/-! ## Intake handler (POST /ingress/contact of the contact worker)

The nondeterministic collaborators are explicit parameters: parseJson
models the JSON.parse builtin (none models a parse exception), and the
downstream forward is an optional fetch outcome (none models no transit
binding and no transit URL configured). -/

/-- The environment variables the POST path reads. -/
structure IntakeEnv : Type where
  ALLOWED_ORIGINS : Option String
  MAX_BODY_BYTES : Option String
  MAX_FIELD_BYTES : Option String

/-- String.prototype.split on the comma separator, over character lists
(the split of the empty string is one empty piece, as in JavaScript). -/
def splitCommaChars : List Char → List (List Char)
  | [] => [[]]
  | c :: rest =>
    let r := splitCommaChars rest
    if c == ',' then [] :: r
    else
      match r with
      | [] => [[c]]
      | h :: t => (c :: h) :: t

/-- isAllowedOrigin: the comma-separated allow-list is split, trimmed and
cleared of empty entries; a non-empty origin must be a member. -/
def isAllowedOrigin (env : IntakeEnv) (origin : String) : Bool :=
  let list := ((splitCommaChars (jsOrStr env.ALLOWED_ORIGINS "").data).map
    (fun p => String.mk (jsTrimChars p))).filter (fun s => s != "")
  origin != "" && origin ∈ list

/-- Outcome of the downstream forward call: a response with its status
code, or a thrown exception (network failure, invalid URL). -/
inductive FetchOutcome : Type where
  | resp : Nat → FetchOutcome
  | threw : FetchOutcome

/-- Response bodies of the intake POST path. -/
inductive RespBody : Type where
  | err : String → RespBody
  | errMsg : String → String → RespBody
  | status : String → RespBody
  | statusMsg : String → String → RespBody
  | statusCode : String → Nat → RespBody

/-- Envelope or flat shape extraction: an object carrying a form property
contributes its fields property, anything else is taken as the flat
field map. -/
def extractShape (input : Value) : Value :=
  if jsTruthy input && typeofIsObject input && hasKey input "form" then
    getProp input "fields"
  else input

/-- The try block of the contact POST path: validateAgainstSchema followed
by enforceByteLimits, the first thrown error surfacing. -/
def contactValidate (env : IntakeEnv) (shape : Value) :
    Except String (List (String × Value)) :=
  match validateAgainstSchemaContact "contact" CONTACT_SCHEMA (sanitizeValue shape) with
  | .error e => .error e
  | .ok flds =>
    match enforceByteLimits (toInt (jsOrStr env.MAX_FIELD_BYTES "5000")) flds with
    | .error e => .error e
    | .ok _ => .ok flds

/-- The stages of POST /ingress/contact before the downstream forward:
origin gate, body-size gate, JSON parse (of the body or, when the body
is empty, of the empty-object text), envelope or flat shape extraction,
sanitize plus validate plus byte limits. The first failing stage yields
the terminal response; none means the submission passed validation and
the downstream forward decides the response. Both forward branches of
the source (service binding and URL fallback) respond identically, so a
single optional fetch outcome covers them. -/
def contactPreamble (env : IntakeEnv) (origin : String) (bodyText : String)
    (parseJson : String → Option Value) : Option (Nat × RespBody) :=
  if !isAllowedOrigin env origin then some (403, .err "forbidden_origin")
  else if (utf8Len bodyText : Int) > toInt (jsOrStr env.MAX_BODY_BYTES "256000") then
    some (413, .err "payload_too_large")
  else
    match parseJson (jsOrStr (some bodyText) "\x7b\x7d") with
    | none => some (400, .err "invalid_json")
    | some input =>
      if !(jsTruthy (extractShape input) && typeofIsObject (extractShape input)) then
        some (400, .err "invalid_payload")
      else
        match contactValidate env (extractShape input) with
        | .error e => some (400, .errMsg "validation_error" e)
        | .ok _ => none

/-- The downstream forward of the contact POST path: a 2xx downstream
answer becomes 202 accepted_by_transit, a non-2xx answer is forwarded
with code transit_rejected, a thrown forward or an unconfigured
downstream degrades to 200 validated_only. -/
def forwardResponse : Option FetchOutcome → Nat × RespBody
  | some (.resp s) =>
    if 200 ≤ s ∧ s ≤ 299 then (202, .status "accepted_by_transit")
    else (s, .statusCode "transit_rejected" s)
  | some .threw => (200, .statusMsg "validated_only" "Transit not configured")
  | none => (200, .statusMsg "validated_only" "Transit not configured")

/-- The whole POST /ingress/contact handler: the preamble's first response
is terminal, otherwise the downstream forward decides the response. -/
def contactIntakePost (env : IntakeEnv) (origin : String) (bodyText : String)
    (parseJson : String → Option Value) (transit : Option FetchOutcome) :
    Nat × RespBody :=
  match contactPreamble env origin bodyText parseJson with
  | some r => r
  | none => forwardResponse transit

/-! ## Transit broker (POST /core) -/

/-- Response bodies of the transit broker's POST /core path. -/
inductive TransitBody : Type where
  | ack : String → String → TransitBody
  | terr : String → TransitBody

/-- Strict equality of a value with a string literal. -/
def valueIsStr : Value → String → Bool
  | .vstr t, s => t == s
  | _, _ => false

/-- The POST /core path after JSON parsing: non-objects are an invalid
payload; a falsy form or a form that is strictly neither the contact nor
the join identifier is an unknown form; otherwise the acknowledgment
echoes the form with the current time. -/
def transitCore (input : Value) (now : String) : Nat × TransitBody :=
  if !jsTruthy input || !typeofIsObject input then (400, .terr "invalid_payload")
  else
    let form := getProp input "form"
    if !jsTruthy form || (!valueIsStr form "contact" && !valueIsStr form "join") then
      (400, .terr "unknown_form")
    else (202, .ack (jsToString form) now)

/-! ## Sheet logger (POST /log)

The token exchange and the append call are collapsed into a single
boolean collaborator (true: the append succeeded; false: token exchange
or append threw); the third result component records whether that path
was reached at all. -/

/-- Outcomes of the sheet logger's POST /log path. -/
inductive SheetOutcome : Type where
  | unauthorized : SheetOutcome
  | badJson : SheetOutcome
  | appended : SheetOutcome
  | sheetError : SheetOutcome

/-- Template-literal stringification of an optional environment string: an
unset variable interpolates as the text undefined. -/
def templateStr : Option String → String
  | none => "undefined"
  | some s => s

/-- The POST /log path: the Authorization header (empty when absent) must
equal the template literal built from the configured secret, else 401
and nothing further runs; then the body must have parsed as JSON, else
400; then the token-exchange and append path runs, 200 on success and
500 on failure. The boolean in the result is true exactly when the
token-exchange and append path was reached. -/
def sheetLogPost (apiToken : Option String) (authHeader : Option String)
    (bodyJson : Option Value) (appendOk : Bool) : Nat × SheetOutcome × Bool :=
  if authHeader.getD "" != "Bearer " ++ templateStr apiToken then
    (401, .unauthorized, false)
  else
    match bodyJson with
    | none => (400, .badJson, false)
    | some _ => if appendOk then (200, .appended, true) else (500, .sheetError, true)

/-! ## Definitions supporting the concrete witnesses -/

/-- Characters never preceding-less-than-then-greater-than: the list splits
into a part without less-than followed by a part without greater-than.
Tag stripping is the identity exactly on such lists, and produces them. -/
def noTagPair (l : List Char) : Prop :=
  ∃ A B, l = A ++ B ∧ '<' ∉ A ∧ '>' ∉ B

/-- The environment of the C5 witness. -/
def sampleEnv : IntakeEnv := ⟨some "https://ops.example", none, none⟩

/-- A flat contact submission carrying the three required fields. -/
def sampleContactBody : Value :=
  .vobj (.cons "Name" (.vstr "Jo") (.cons "Email" (.vstr "a@b.co")
    (.cons "What are you interested in?" (.vstr "IT Support") .nil)))

/-- The environment of the C6 witness: a three-byte cap. -/
def env413 : IntakeEnv := ⟨some "https://ops.example", some "3", none⟩

/-- The 254-character boundary email: a 248-character local part at the
domain bb.co. -/
def email254 : String := String.mk (List.replicate 248 'a' ++ "@bb.co".data)

/-- The 255-character boundary email: one more character in the local
part. -/
def email255 : String := String.mk (List.replicate 249 'a' ++ "@bb.co".data)

/-! ## Lemmas about the sanitizer passes -/

/-- Every stripping pass returns a sublist of its input. -/
theorem stripTagsGo_sublist : ∀ (fuel : Nat) (l : List Char), stripTagsGo fuel l <+ l := by
  intro fuel
  induction fuel with
  | zero => intro l; cases l <;> simp [stripTagsGo]
  | succ fuel ih =>
    intro l
    match l with
    | [] => simp [stripTagsGo]
    | c :: rest =>
      simp only [stripTagsGo]
      split
      · split
        · exact ((ih _).trans ((List.drop_sublist _ _).trans
            (List.dropWhile_sublist _))).trans (List.sublist_cons_self _ _)
        · exact List.Sublist.refl _
      · exact (ih rest).cons₂ c

/-- A successful handler match contains an equals sign. -/
theorem handlerMatchLen_eq_mem {l : List Char} {n : Nat}
    (h : handlerMatchLen l = some n) : '=' ∈ l := by
  match l with
  | [] => simp [handlerMatchLen] at h
  | [c] => simp [handlerMatchLen] at h
  | c1 :: c2 :: rest =>
    simp only [handlerMatchLen] at h
    split at h
    · split at h
      · exact absurd h (by simp)
      · split at h
        · rename_i heq
          have hm : '=' ∈ (rest.dropWhile jsIsWord).dropWhile jsIsSpace := by
            rw [heq]; exact List.mem_cons_self _ _
          have hr : '=' ∈ rest :=
            ((List.dropWhile_sublist _).trans (List.dropWhile_sublist _)).subset hm
          exact List.mem_cons_of_mem _ (List.mem_cons_of_mem _ hr)
        · exact absurd h (by simp)
    · exact absurd h (by simp)

/-- Without an equals sign the handler-stripping pass is the identity. -/
theorem stripHandlersGo_id : ∀ (fuel : Nat) (b : Bool) (l : List Char),
    '=' ∉ l → stripHandlersGo fuel b l = l := by
  intro fuel
  induction fuel with
  | zero => intro b l _; cases l <;> simp [stripHandlersGo]
  | succ fuel ih =>
    intro b l h
    match l with
    | [] => simp [stripHandlersGo]
    | c :: rest =>
      have hrest : '=' ∉ rest := fun hm => h (List.mem_cons_of_mem _ hm)
      simp only [stripHandlersGo]
      split
      · rw [ih _ rest hrest]
      · cases hml : handlerMatchLen (c :: rest) with
        | some n => exact absurd (handlerMatchLen_eq_mem hml) h
        | none => simp only [hml]; rw [ih _ rest hrest]

/-- The handler-stripping pass returns a sublist of its input. -/
theorem stripHandlersGo_sublist : ∀ (fuel : Nat) (b : Bool) (l : List Char),
    stripHandlersGo fuel b l <+ l := by
  intro fuel
  induction fuel with
  | zero => intro b l; cases l <;> simp [stripHandlersGo]
  | succ fuel ih =>
    intro b l
    match l with
    | [] => simp [stripHandlersGo]
    | c :: rest =>
      simp only [stripHandlersGo]
      split
      · exact (ih _ rest).cons₂ c
      · cases hml : handlerMatchLen (c :: rest) with
        | some n => exact (ih _ _).trans (List.drop_sublist _ _)
        | none => exact (ih _ rest).cons₂ c

/-- A successful case-insensitive prefix match returns a suffix sublist. -/
theorem ciPrefixDrop_sublist : ∀ (p l r : List Char), ciPrefixDrop p l = some r → r <+ l := by
  intro p
  induction p with
  | nil =>
    intro l r h
    simp only [ciPrefixDrop, Option.some.injEq] at h
    exact h ▸ List.Sublist.refl _
  | cons p ps ih =>
    intro l r h
    match l with
    | [] => simp [ciPrefixDrop] at h
    | c :: cs =>
      simp only [ciPrefixDrop] at h
      split at h
      · exact (ih cs r h).trans (List.sublist_cons_self _ _)
      · exact absurd h (by simp)

/-- A successful javascript-URI match contains a colon. -/
theorem jsUriMatchLen_colon_mem {l : List Char} {n : Nat}
    (h : jsUriMatchLen l = some n) : ':' ∈ l := by
  simp only [jsUriMatchLen] at h
  split at h
  · exact absurd h (by simp)
  · rename_i rest hci
    split at h
    · rename_i heq
      have hm : ':' ∈ rest.dropWhile jsIsSpace := by
        rw [heq]; exact List.mem_cons_self _ _
      exact ((List.dropWhile_sublist _).trans (ciPrefixDrop_sublist _ _ _ hci)).subset hm
    · exact absurd h (by simp)

/-- Without a colon the javascript-URI pass is the identity. -/
theorem stripJsGo_id : ∀ (fuel : Nat) (l : List Char), ':' ∉ l → stripJsGo fuel l = l := by
  intro fuel
  induction fuel with
  | zero => intro l _; cases l <;> simp [stripJsGo]
  | succ fuel ih =>
    intro l h
    match l with
    | [] => simp [stripJsGo]
    | c :: rest =>
      have hrest : ':' ∉ rest := fun hm => h (List.mem_cons_of_mem _ hm)
      simp only [stripJsGo]
      cases hml : jsUriMatchLen (c :: rest) with
      | some n => exact absurd (jsUriMatchLen_colon_mem hml) h
      | none => simp only [hml]; rw [ih rest hrest]

/-- The javascript-URI pass returns a sublist of its input. -/
theorem stripJsGo_sublist : ∀ (fuel : Nat) (l : List Char), stripJsGo fuel l <+ l := by
  intro fuel
  induction fuel with
  | zero => intro l; cases l <;> simp [stripJsGo]
  | succ fuel ih =>
    intro l
    match l with
    | [] => simp [stripJsGo]
    | c :: rest =>
      simp only [stripJsGo]
      cases hml : jsUriMatchLen (c :: rest) with
      | some n => exact (ih _).trans (List.drop_sublist _ _)
      | none => exact (ih rest).cons₂ c

/-- Trimming returns a sublist of its input. -/
theorem jsTrimChars_sublist (l : List Char) : jsTrimChars l <+ l := by
  unfold jsTrimChars trimRightChars trimLeftChars
  have h1 : (l.dropWhile jsIsSpace).reverse.dropWhile jsIsSpace <+ (l.dropWhile jsIsSpace).reverse :=
    List.dropWhile_sublist _
  have h2 := h1.reverse
  simp only [List.reverse_reverse] at h2
  exact h2.trans (List.dropWhile_sublist _)

/-- The property descends to sublists. -/
theorem noTagPair_sublist {l2 l : List Char} (hs : l2 <+ l) (h : noTagPair l) :
    noTagPair l2 := by
  obtain ⟨A, B, rfl, hA, hB⟩ := h
  rw [List.sublist_append_iff] at hs
  obtain ⟨A2, B2, rfl, sA, sB⟩ := hs
  exact ⟨A2, B2, rfl, fun hm => hA (sA.subset hm), fun hm => hB (sB.subset hm)⟩

/-- The property descends to the tail. -/
theorem noTagPair_tail {c : Char} {l : List Char} (h : noTagPair (c :: l)) :
    noTagPair l :=
  noTagPair_sublist (List.sublist_cons_self _ _) h

/-- The tag-stripping pass outputs a list with the no-tag-pair property. -/
theorem stripTagsGo_noTagPair : ∀ (fuel : Nat) (l : List Char),
    l.length ≤ fuel → noTagPair (stripTagsGo fuel l) := by
  intro fuel
  induction fuel with
  | zero =>
    intro l h
    have : l = [] := List.eq_nil_of_length_eq_zero (Nat.le_zero.mp h)
    subst this
    exact ⟨[], [], by simp [stripTagsGo], by simp, by simp⟩
  | succ fuel ih =>
    intro l h
    match l with
    | [] => exact ⟨[], [], by simp [stripTagsGo], by simp, by simp⟩
    | c :: rest =>
      simp only [stripTagsGo]
      split
      · split
        · apply ih
          have h1 : (rest.dropWhile (fun d => d != '>')).length ≤ rest.length :=
            (List.dropWhile_sublist _).length_le
          have h2 : rest.length + 1 ≤ fuel + 1 := by
            simpa using h
          simp only [List.length_drop]
          omega
        · rename_i hlt hgt
          refine ⟨[], c :: rest, by simp, by simp, ?_⟩
          intro hm
          rcases List.mem_cons.mp hm with h1 | h1
          · rw [← h1] at hlt
            simp at hlt
          · exact hgt h1
      · rename_i hlt
        obtain ⟨A, B, heq, hA, hB⟩ := ih rest (by simpa using h)
        refine ⟨c :: A, B, by simp [heq], ?_, hB⟩
        intro hm
        rcases List.mem_cons.mp hm with h1 | h1
        · rw [← h1] at hlt
          simp at hlt
        · exact hA h1

/-- Tag stripping is the identity on lists with the no-tag-pair property. -/
theorem stripTagsGo_of_noTagPair : ∀ (fuel : Nat) (l : List Char),
    noTagPair l → stripTagsGo fuel l = l := by
  intro fuel
  induction fuel with
  | zero => intro l _; cases l <;> simp [stripTagsGo]
  | succ fuel ih =>
    intro l h
    match l with
    | [] => simp [stripTagsGo]
    | c :: rest =>
      simp only [stripTagsGo]
      split
      · rename_i hlt
        have hc : c = '<' := by simpa using hlt
        obtain ⟨A, B, heq, hA, hB⟩ := h
        have hgt : '>' ∉ rest := by
          cases A with
          | nil =>
            simp only [List.nil_append] at heq
            intro hm
            exact hB (heq ▸ List.mem_cons_of_mem _ hm)
          | cons a A2 =>
            exfalso
            have hca : c = a := by
              have hh := congrArg List.head? heq
              simpa using hh
            apply hA
            rw [← hca, hc]
            exact List.mem_cons_self _ _
        split
        · rename_i hmem
          exact absurd hmem hgt
        · rfl
      · rw [ih rest (noTagPair_tail h)]

/-- The head surviving a dropWhile fails the predicate. -/
theorem dropWhile_head_false (p : Char → Bool) :
    ∀ (l : List Char) (c : Char) (r : List Char), l.dropWhile p = c :: r → p c = false := by
  intro l
  induction l with
  | nil => intro c r h; simp [List.dropWhile] at h
  | cons a tl ih =>
    intro c r h
    by_cases hp : p a
    · rw [List.dropWhile_cons_of_pos hp] at h
      exact ih c r h
    · rw [List.dropWhile_cons_of_neg hp] at h
      cases h
      simpa using hp

/-- Dropping a prefix twice with the same predicate changes nothing. -/
theorem dropWhile_dropWhile (p : Char → Bool) (l : List Char) :
    (l.dropWhile p).dropWhile p = l.dropWhile p := by
  cases h : l.dropWhile p with
  | nil => simp
  | cons c r =>
    rw [List.dropWhile_cons_of_neg (by simp [dropWhile_head_false p l c r h])]

/-- The right trim yields a prefix of its input. -/
theorem trimRightChars_prefix (l : List Char) : trimRightChars l <+: l := by
  unfold trimRightChars
  conv_rhs => rw [← l.reverse_reverse]
  exact List.reverse_prefix.mpr (List.dropWhile_suffix _)

/-- Trimming is idempotent. -/
theorem jsTrimChars_idem (l : List Char) : jsTrimChars (jsTrimChars l) = jsTrimChars l := by
  have hleft : trimLeftChars (trimRightChars (trimLeftChars l))
      = trimRightChars (trimLeftChars l) := by
    cases hz : trimRightChars (trimLeftChars l) with
    | nil => simp [trimLeftChars]
    | cons c r =>
      obtain ⟨t, ht⟩ := trimRightChars_prefix (trimLeftChars l)
      rw [hz] at ht
      have hleq : trimLeftChars l = c :: (r ++ t) := by
        rw [← ht]
        simp
      have hhd : jsIsSpace c = false := dropWhile_head_false jsIsSpace l c (r ++ t) hleq
      unfold trimLeftChars
      rw [List.dropWhile_cons_of_neg (by simp [hhd])]
  unfold jsTrimChars
  rw [hleft]
  unfold trimRightChars
  simp only [List.reverse_reverse]
  rw [dropWhile_dropWhile]

/-- What the control-character pass outputs is never a control
character. -/
theorem ctrlToSpace_not_ctrl (a : Char) : jsIsCtrl (ctrlToSpace a) = false := by
  unfold ctrlToSpace
  by_cases h : jsIsCtrl a
  · rw [if_pos h]
    decide
  · rw [if_neg h]
    simpa using h

/-- ctrlToSpace only ever outputs the original character or a space. -/
theorem ctrlToSpace_out (a : Char) : ctrlToSpace a = a ∨ ctrlToSpace a = ' ' := by
  unfold ctrlToSpace
  by_cases h : jsIsCtrl a <;> simp [h]

/-- Sanitizer idempotence on safe inputs: on strings containing neither an
equals sign nor a colon, one pass is a fixed point of a second pass. -/
theorem sanitizeChars_idem (l : List Char) (he : '=' ∉ l) (hc : ':' ∉ l) :
    sanitizeChars (sanitizeChars l) = sanitizeChars l := by
  unfold sanitizeChars nfkcNormalize
  set x2 : List Char := (l.map ctrlToSpace).filter (fun c => !jsIsBidi c) with hx2
  have hmem_x2 : ∀ c ∈ x2, (c = '=' → False) ∧ (c = ':' → False) ∧
      jsIsCtrl c = false ∧ jsIsBidi c = false := by
    intro c hcm
    rw [hx2] at hcm
    have hbidi : (!jsIsBidi c) = true := (List.mem_filter.mp hcm).2
    have hmap : c ∈ l.map ctrlToSpace := (List.mem_filter.mp hcm).1
    obtain ⟨a, ha, hac⟩ := List.mem_map.mp hmap
    have hctrl : jsIsCtrl c = false := hac ▸ ctrlToSpace_not_ctrl a
    refine ⟨?_, ?_, hctrl, by simpa using hbidi⟩
    · intro hceq
      rcases ctrlToSpace_out a with h1 | h1
      · have haeq : a = '=' := (h1.symm.trans hac).trans hceq
        exact he (haeq ▸ ha)
      · rw [hac] at h1
        rw [hceq] at h1
        exact absurd h1 (by decide)
    · intro hceq
      rcases ctrlToSpace_out a with h1 | h1
      · have haeq : a = ':' := (h1.symm.trans hac).trans hceq
        exact hc (haeq ▸ ha)
      · rw [hac] at h1
        rw [hceq] at h1
        exact absurd h1 (by decide)
  -- the first pass collapses: handlers and the javascript pattern find
  -- nothing in the tag-stripped list
  have hy_sub : stripTags x2 <+ x2 := stripTagsGo_sublist _ _
  have hy_eqmem : '=' ∉ stripTags x2 := fun hm => (hmem_x2 _ (hy_sub.subset hm)).1 rfl
  have hy_clmem : ':' ∉ stripTags x2 := fun hm => ((hmem_x2 _ (hy_sub.subset hm)).2).1 rfl
  rw [show stripHandlers (stripTags x2) = stripTags x2 from stripHandlersGo_id _ _ _ hy_eqmem]
  rw [show stripJs (stripTags x2) = stripTags x2 from stripJsGo_id _ _ hy_clmem]
  set t : List Char := jsTrimChars (stripTags x2) with hts
  have ht_sub : t <+ stripTags x2 := jsTrimChars_sublist _
  have ht_mem : ∀ c ∈ t, (c = '=' → False) ∧ (c = ':' → False) ∧
      jsIsCtrl c = false ∧ jsIsBidi c = false :=
    fun c hm => hmem_x2 c (hy_sub.subset (ht_sub.subset hm))
  -- the second pass is the identity, step by step
  have hmap_t : t.map ctrlToSpace = t := by
    rw [show t.map ctrlToSpace = t.map id from ?_, List.map_id]
    apply List.map_congr_left
    intro a ha
    have := (ht_mem a ha).2.2.1
    simp [ctrlToSpace, this]
  have hfil_t : t.filter (fun c => !jsIsBidi c) = t := by
    apply List.filter_eq_self.mpr
    intro a ha
    simp [(ht_mem a ha).2.2.2]
  have htags_t : stripTags t = t := by
    apply stripTagsGo_of_noTagPair
    exact noTagPair_sublist ht_sub (stripTagsGo_noTagPair _ _ (Nat.le_refl _))
  have hhand_t : stripHandlers t = t :=
    stripHandlersGo_id _ _ _ (fun hm => (ht_mem _ hm).1 rfl)
  have hjs_t : stripJs t = t :=
    stripJsGo_id _ _ (fun hm => ((ht_mem _ hm).2).1 rfl)
  rw [hmap_t, hfil_t, htags_t, hhand_t, hjs_t, hts]
  exact jsTrimChars_idem _

/-! ## Helper lemmas for the validator claims -/

/-- A successful field loop emits exactly the schema names, in order. -/
theorem validateFieldsWith_keys (check : FieldSpec → Value → Except String Value)
    (fieldsV : Value) :
    ∀ (schema : List FieldSpec) (out : List (String × Value)),
      validateFieldsWith check fieldsV schema = Except.ok out →
      out.map Prod.fst = schema.map FieldSpec.name := by
  intro schema
  induction schema with
  | nil =>
    intro out h
    simp only [validateFieldsWith, Except.ok.injEq] at h
    subst h
    simp
  | cons f rest ih =>
    intro out h
    simp only [validateFieldsWith] at h
    split at h
    · exact absurd h (by simp)
    · split at h
      · cases hrec : validateFieldsWith check fieldsV rest with
        | error e => rw [hrec] at h; exact absurd h (by simp)
        | ok out2 =>
          rw [hrec] at h
          simp only [Except.ok.injEq] at h
          subst h
          simp [ih out2 hrec]
      · cases hchk : check f (getProp fieldsV f.name) with
        | error e => rw [hchk] at h; exact absurd h (by simp)
        | ok w =>
          rw [hchk] at h
          cases hrec : validateFieldsWith check fieldsV rest with
          | error e => rw [hrec] at h; exact absurd h (by simp)
          | ok out2 =>
            rw [hrec] at h
            simp only [Except.ok.injEq] at h
            subst h
            simp [ih out2 hrec]

/-- The allow-list pass fails on the first undeclared key whenever some
undeclared key is present. -/
theorem checkUnknownKeys_finds (allowed : List String) :
    ∀ (keys : List String) (k : String), k ∈ keys → k ∉ allowed →
      ∃ k0, k0 ∈ keys ∧ k0 ∉ allowed ∧
        checkUnknownKeys allowed keys = Except.error ("unexpected field: " ++ k0) := by
  intro keys
  induction keys with
  | nil => intro k hk; exact absurd hk (by simp)
  | cons a rest ih =>
    intro k hk hkn
    by_cases ha : a ∈ allowed
    · rcases List.mem_cons.mp hk with rfl | hk2
      · exact absurd ha hkn
      · obtain ⟨k0, h1, h2, h3⟩ := ih k hk2 hkn
        exact ⟨k0, List.mem_cons_of_mem _ h1, h2, by simp [checkUnknownKeys, ha, h3]⟩
    · exact ⟨a, List.mem_cons_self _ _, ha, by simp [checkUnknownKeys, ha]⟩

/-! ## The claims -/

/-- C1, counterexample: sanitizeValue is not idempotent on every string;
on the ASCII input javajavascript:script: one pass strips the inner
javascript: occurrence and reassembles a new one from the surrounding
text, which a second pass then strips again. -/
theorem c1_sanitizer_idempotent_cex :
    sanitizeValue (sanitizeValue (Value.vstr "javajavascript:script:"))
      ≠ sanitizeValue (Value.vstr "javajavascript:script:") := by
  intro h
  have h2 : sanitizeString (sanitizeString "javajavascript:script:")
      = sanitizeString "javajavascript:script:" := Value.vstr.inj h
  exact absurd h2 (by decide)

/-- C1, amended: the Sanitizer is idempotent on ASCII strings that contain
neither an equals sign nor a colon (the two characters whose removal
patterns can reassemble across a removed match); on such strings
applying sanitizeValue twice equals applying it once. -/
theorem c1_sanitizer_idempotent_amended (s : String)
    (hAscii : ∀ c ∈ s.data, c.toNat < 128)
    (hEq : '=' ∉ s.data) (hColon : ':' ∉ s.data) :
    sanitizeValue (sanitizeValue (Value.vstr s)) = sanitizeValue (Value.vstr s) := by
  have e : ∀ t : String, sanitizeValue (Value.vstr t) = Value.vstr (sanitizeString t) :=
    fun t => by simp [sanitizeValue]
  rw [e, e]
  have h2 : sanitizeChars (sanitizeChars s.data) = sanitizeChars s.data :=
    sanitizeChars_idem s.data hEq hColon
  have e2 : ∀ t : String, sanitizeString t = String.mk (sanitizeChars t.data) :=
    fun t => rfl
  have e3 : ∀ l : List Char, (String.mk l).data = l := fun l => rfl
  rw [e2 s, e2 (String.mk (sanitizeChars s.data)), e3, h2]

/-- C1, witness for the amended theorem at the concrete ASCII string
ab <i>cd containing neither an equals sign nor a colon. -/
theorem c1_sanitizer_idempotent_amended_witness :
    (∀ c ∈ "ab <i>cd".data, c.toNat < 128) ∧ '=' ∉ "ab <i>cd".data ∧
      ':' ∉ "ab <i>cd".data ∧
      sanitizeValue (sanitizeValue (Value.vstr "ab <i>cd"))
        = sanitizeValue (Value.vstr "ab <i>cd") :=
  ⟨by decide, by decide, by decide,
    c1_sanitizer_idempotent_amended "ab <i>cd" (by decide) (by decide) (by decide)⟩

/-- C2: a successful validation (of either worker) returns exactly the
schema's declared field names as its key set, and any input key not
declared in the schema makes validation fail with an unexpected-field
error naming an undeclared input key, before any output is produced. -/
theorem c2_validator_keyset :
    ((∀ (fn : String) (schema : List FieldSpec) (fieldsV : Value) (out : List (String × Value)),
        validateAgainstSchemaContact fn schema fieldsV = Except.ok out →
        out.map Prod.fst = schema.map FieldSpec.name) ∧
     (∀ (fn : String) (schema : List FieldSpec) (fieldsV : Value) (out : List (String × Value)),
        validateAgainstSchemaJoin fn schema fieldsV = Except.ok out →
        out.map Prod.fst = schema.map FieldSpec.name)) ∧
    (∀ (schema : List FieldSpec) (fieldsV : Value) (k : String),
       k ∈ jsKeys fieldsV → k ∉ schema.map FieldSpec.name →
       ∃ k0, k0 ∈ jsKeys fieldsV ∧ k0 ∉ schema.map FieldSpec.name ∧
         validateAgainstSchemaContact "contact" schema fieldsV
           = Except.error ("unexpected field: " ++ k0) ∧
         validateAgainstSchemaJoin "join" schema fieldsV
           = Except.error ("unexpected field: " ++ k0)) := by
  refine ⟨⟨?_, ?_⟩, ?_⟩
  · intro fn schema fieldsV out h
    unfold validateAgainstSchemaContact at h
    split at h
    · exact absurd h (by simp)
    · cases hck : checkUnknownKeys (schema.map (fun f => f.name)) (jsKeys fieldsV) with
      | error e => rw [hck] at h; exact absurd h (by simp)
      | ok u => rw [hck] at h; exact validateFieldsWith_keys _ _ _ _ h
  · intro fn schema fieldsV out h
    unfold validateAgainstSchemaJoin at h
    split at h
    · exact absurd h (by simp)
    · cases hck : checkUnknownKeys (schema.map (fun f => f.name)) (jsKeys fieldsV) with
      | error e => rw [hck] at h; exact absurd h (by simp)
      | ok u => rw [hck] at h; exact validateFieldsWith_keys _ _ _ _ h
  · intro schema fieldsV k hk hkn
    obtain ⟨k0, h1, h2, h3⟩ :=
      checkUnknownKeys_finds (schema.map FieldSpec.name) (jsKeys fieldsV) k hk hkn
    refine ⟨k0, h1, h2, ?_, ?_⟩
    · unfold validateAgainstSchemaContact
      rw [if_neg (by simp)]
      simp only [h3]
    · unfold validateAgainstSchemaJoin
      rw [if_neg (by simp)]
      simp only [h3]

/-- C2, witness: the one-field schema A on the input carrying the single
undeclared key X fails with its unexpected-field error. -/
theorem c2_validator_keyset_witness :
    ∃ k0, k0 ∈ jsKeys (Value.vobj (.cons "X" (.vstr "1") .nil)) ∧
      k0 ∉ [FieldSpec.mk "A" "string" false none none []].map FieldSpec.name ∧
      validateAgainstSchemaContact "contact" [FieldSpec.mk "A" "string" false none none []]
        (Value.vobj (.cons "X" (.vstr "1") .nil))
        = Except.error ("unexpected field: " ++ "X") ∧
      validateAgainstSchemaJoin "join" [FieldSpec.mk "A" "string" false none none []]
        (Value.vobj (.cons "X" (.vstr "1") .nil))
        = Except.error ("unexpected field: " ++ "X") := by
  have h := c2_validator_keyset.2 [FieldSpec.mk "A" "string" false none none []]
    (Value.vobj (.cons "X" (.vstr "1") .nil)) "X" (by decide) (by decide)
  obtain ⟨k0, h1, h2, h3, h4⟩ := h
  have hk0 : k0 = "X" := by
    have : k0 ∈ ["X"] := h1
    simpa using this
  subst hk0
  exact ⟨"X", h1, h2, h3, h4⟩

/-- C3: a strArrayCapped input array with more than 50 items fails with
the items-count error before any item is converted, producing no
output. -/
theorem c3_strarray_cap (xs : VList) (field : String)
    (h : vlistLength xs > 50) :
    strArrayCapped (Value.varr xs) field
      = Except.error (field ++ " has too many items") := by
  unfold strArrayCapped
  rw [if_neg (by simp [jsTruthy])]
  simp only []
  rw [if_pos h]

/-- C3, witness at an array of 51 one-character strings. -/
theorem c3_strarray_cap_witness :
    vlistLength (strsToVList (List.replicate 51 "a")) > 50 ∧
    strArrayCapped (Value.varr (strsToVList (List.replicate 51 "a"))) "Skills"
      = Except.error "Skills has too many items" :=
  ⟨by decide, c3_strarray_cap (strsToVList (List.replicate 51 "a")) "Skills" (by decide)⟩

/-- C4: the transit broker acknowledges exactly the known form identifiers
contact and join with a 202 echoing the form, and answers 400
unknown_form on every object body whose form property is missing, empty
or anything else. -/
theorem c4_transit_forms (kvs : VObj) (now : String) :
    (∀ s, (s = "contact" ∨ s = "join") →
       lookupVObj kvs "form" = some (Value.vstr s) →
       transitCore (Value.vobj kvs) now = (202, TransitBody.ack s now)) ∧
    ((∀ s, (s = "contact" ∨ s = "join") →
        lookupVObj kvs "form" ≠ some (Value.vstr s)) →
       transitCore (Value.vobj kvs) now = (400, TransitBody.terr "unknown_form")) := by
  constructor
  · intro s hs hlook
    unfold transitCore
    rw [if_neg (by simp [jsTruthy, typeofIsObject])]
    simp only [getProp, hlook, Option.getD_some]
    rcases hs with rfl | rfl
    · rw [if_neg (by decide)]
      rfl
    · rw [if_neg (by decide)]
      rfl
  · intro hall
    unfold transitCore
    rw [if_neg (by simp [jsTruthy, typeofIsObject])]
    cases hlook : lookupVObj kvs "form" with
    | none =>
      simp only [getProp, hlook, Option.getD_none]
      rw [if_pos (by decide)]
    | some w =>
      simp only [getProp, hlook, Option.getD_some]
      cases w with
      | vstr t =>
        have hcon : t ≠ "contact" := by
          intro heq
          exact hall "contact" (Or.inl rfl) (by rw [hlook, heq])
        have hjoin : t ≠ "join" := by
          intro heq
          exact hall "join" (Or.inr rfl) (by rw [hlook, heq])
        rw [if_pos (by simp [valueIsStr, hcon, hjoin])]
      | vnum n => rw [if_pos (by simp [valueIsStr])]
      | vbool b => rw [if_pos (by simp [valueIsStr])]
      | vnull => rw [if_pos (by decide)]
      | vundefined => rw [if_pos (by decide)]
      | varr xs => rw [if_pos (by simp [valueIsStr])]
      | vobj kvs2 => rw [if_pos (by simp [valueIsStr])]

/-- C4, witness: a body with form contact is acknowledged with a 202
echoing contact. -/
theorem c4_transit_forms_witness :
    transitCore (Value.vobj (.cons "form" (.vstr "contact") .nil)) "T"
      = (202, TransitBody.ack "contact" "T") :=
  (c4_transit_forms (.cons "form" (.vstr "contact") .nil) "T").1 "contact" (Or.inl rfl) rfl

/-- Every early exit of the preamble carries status 403, 413 or 400; in
particular it is never the validated-only response. -/
theorem contactPreamble_status (env : IntakeEnv) (origin bodyText : String)
    (parseJson : String → Option Value) (r : Nat × RespBody)
    (h : contactPreamble env origin bodyText parseJson = some r) :
    r.1 = 403 ∨ r.1 = 413 ∨ r.1 = 400 := by
  unfold contactPreamble at h
  split at h
  · obtain rfl : (403, RespBody.err "forbidden_origin") = r := Option.some.inj h
    exact Or.inl rfl
  · split at h
    · obtain rfl : (413, RespBody.err "payload_too_large") = r := Option.some.inj h
      exact Or.inr (Or.inl rfl)
    · split at h
      · obtain rfl : (400, RespBody.err "invalid_json") = r := Option.some.inj h
        exact Or.inr (Or.inr rfl)
      · split at h
        · obtain rfl : (400, RespBody.err "invalid_payload") = r := Option.some.inj h
          exact Or.inr (Or.inr rfl)
        · split at h
          · obtain rfl : _ = r := Option.some.inj h
            exact Or.inr (Or.inr rfl)
          · exact absurd h (by simp)

/-- C5: once a submission passes validation (witnessed by the handler
answering validated_only when no downstream is configured), the terminal
response is decided by the downstream forward alone: a 2xx downstream
response gives 202 accepted_by_transit, a non-2xx response forwards the
downstream status with code transit_rejected, and a thrown forward or no
configured downstream gives 200 validated_only; a downstream exception
never produces an error response. -/
theorem c5_forward_terminal (env : IntakeEnv) (origin bodyText : String)
    (parseJson : String → Option Value) (transit : Option FetchOutcome)
    (h : contactIntakePost env origin bodyText parseJson none
        = (200, RespBody.statusMsg "validated_only" "Transit not configured")) :
    contactIntakePost env origin bodyText parseJson transit =
      match transit with
      | some (FetchOutcome.resp s) =>
          if 200 ≤ s ∧ s ≤ 299 then (202, RespBody.status "accepted_by_transit")
          else (s, RespBody.statusCode "transit_rejected" s)
      | some FetchOutcome.threw =>
          (200, RespBody.statusMsg "validated_only" "Transit not configured")
      | none => (200, RespBody.statusMsg "validated_only" "Transit not configured") := by
  unfold contactIntakePost at h ⊢
  cases hpre : contactPreamble env origin bodyText parseJson with
  | some r =>
    simp only [hpre] at h
    rcases contactPreamble_status env origin bodyText parseJson r hpre with h3 | h3 | h3 <;>
      rw [h] at h3 <;> simp at h3
  | none =>
    simp only [hpre]
    cases transit with
    | none => rfl
    | some o => cases o with
      | resp s => rfl
      | threw => rfl

/-- C5, witness: the sample submission validates (hypothesis discharged by
evaluation) and a downstream 500 is forwarded as 500 transit_rejected. -/
theorem c5_forward_terminal_witness :
    contactIntakePost sampleEnv "https://ops.example" "B"
        (fun _ => some sampleContactBody) (some (FetchOutcome.resp 500))
      = (500, RespBody.statusCode "transit_rejected" 500) :=
  c5_forward_terminal sampleEnv "https://ops.example" "B"
    (fun _ => some sampleContactBody) (some (FetchOutcome.resp 500)) rfl

/-- C6: for an allow-listed origin, a body whose UTF-8 byte length exceeds
the configured maximum is answered 413 payload_too_large for every JSON
parser whatsoever, so before and independently of any JSON parsing. -/
theorem c6_body_size_gate (env : IntakeEnv) (origin bodyText : String)
    (parseJson : String → Option Value) (transit : Option FetchOutcome)
    (h1 : isAllowedOrigin env origin = true)
    (h2 : (utf8Len bodyText : Int) > toInt (jsOrStr env.MAX_BODY_BYTES "256000")) :
    contactIntakePost env origin bodyText parseJson transit
      = (413, RespBody.err "payload_too_large") := by
  unfold contactIntakePost contactPreamble
  rw [h1]
  rw [if_neg (by simp)]
  rw [if_pos h2]

/-- C6, witness at a five-byte body against a three-byte cap, with a parser
that accepts nothing. -/
theorem c6_body_size_gate_witness :
    isAllowedOrigin env413 "https://ops.example" = true ∧
    (utf8Len "hello" : Int) > toInt (jsOrStr env413.MAX_BODY_BYTES "256000") ∧
    contactIntakePost env413 "https://ops.example" "hello" (fun _ => none) none
      = (413, RespBody.err "payload_too_large") :=
  ⟨by decide, by decide,
    c6_body_size_gate env413 "https://ops.example" "hello" (fun _ => none) none
      (by decide) (by decide)⟩

/-- C9: for an allow-listed origin and an empty body, the handler parses
the empty-object text instead of failing with invalid_json; the empty
object is accepted as a flat field map and schema validation then fails
on the first required field, so the response is 400 validation_error
with the message missing: Name. -/
theorem c9_empty_body (ao mfb : Option String) (origin : String)
    (parseJson : String → Option Value) (transit : Option FetchOutcome)
    (h1 : isAllowedOrigin ⟨ao, none, mfb⟩ origin = true)
    (h2 : parseJson "\x7b\x7d" = some (Value.vobj .nil)) :
    contactIntakePost ⟨ao, none, mfb⟩ origin "" parseJson transit
      = (400, RespBody.errMsg "validation_error" "missing: Name") := by
  unfold contactIntakePost contactPreamble
  rw [h1]
  rw [if_neg (by simp)]
  rw [if_neg (by
    show ¬((utf8Len "" : Int) > toInt (jsOrStr none "256000"))
    decide)]
  rw [show jsOrStr (some "") "\x7b\x7d" = "\x7b\x7d" from rfl]
  rw [h2]
  rfl

/-- C9, witness with a parser that parses exactly the empty-object text. -/
theorem c9_empty_body_witness :
    isAllowedOrigin ⟨some "https://ops.example", none, none⟩ "https://ops.example" = true ∧
    (fun s => if s == "\x7b\x7d" then some (Value.vobj VObj.nil) else none) "\x7b\x7d"
        = some (Value.vobj VObj.nil) ∧
    contactIntakePost ⟨some "https://ops.example", none, none⟩ "https://ops.example" ""
        (fun s => if s == "\x7b\x7d" then some (Value.vobj VObj.nil) else none) none
      = (400, RespBody.errMsg "validation_error" "missing: Name") :=
  ⟨by decide, rfl,
    c9_empty_body (some "https://ops.example") none "https://ops.example"
      (fun s => if s == "\x7b\x7d" then some (Value.vobj VObj.nil) else none) none
      (by decide) rfl⟩

/-- mustEmail succeeds exactly when the sanitized string's UTF-16 length
lies in the 3 to 254 window and the sanitized string has the permissive
email shape. -/
theorem mustEmail_ok_iff (s field : String) :
    (∃ r, mustEmail (Value.vstr s) field = Except.ok r) ↔
      (3 ≤ utf16Len (sanitizeString s) ∧ utf16Len (sanitizeString s) ≤ 254 ∧
        emailShape (sanitizeString s) = true) := by
  unfold mustEmail
  have hjs : jsToString (Value.vstr s) = s := by simp [jsToString]
  rw [hjs]
  simp only [mustStr]
  by_cases h1 : utf16Len (sanitizeString s) < 3
  · rw [if_pos h1]
    simp only []
    constructor
    · intro hex
      obtain ⟨r, hr⟩ := hex
      simp at hr
    · intro hrt
      omega
  · rw [if_neg h1]
    by_cases h2 : utf16Len (sanitizeString s) > 254
    · rw [if_pos h2]
      constructor
      · intro hex
        obtain ⟨r, hr⟩ := hex
        simp at hr
      · intro hrt
        omega
    · rw [if_neg h2]
      by_cases h3 : emailShape (sanitizeString s) = true
      · simp [h3]
        omega
      · simp [h3]

set_option maxRecDepth 8000 in
set_option maxHeartbeats 2000000 in
/-- C7: validation of an email field accepts exactly the values whose
sanitized string has UTF-16 length in the 3 to 254 window and the
permissive local at domain dot tld shape; in particular the 254-character
pattern-matching boundary email passes, and the 255-character one fails
with the too-long length error. -/
theorem c7_email_boundary :
    (∀ s : String, (∃ r, mustEmail (Value.vstr s) "Email" = Except.ok r) ↔
       (3 ≤ utf16Len (sanitizeString s) ∧ utf16Len (sanitizeString s) ≤ 254 ∧
         emailShape (sanitizeString s) = true)) ∧
    mustEmail (Value.vstr email254) "Email" = Except.ok email254 ∧
    utf16Len email254 = 254 ∧ emailShape email254 = true ∧
    mustEmail (Value.vstr email255) "Email" = Except.error "Email too long" ∧
    utf16Len email255 = 255 ∧ emailShape email255 = true :=
  ⟨fun s => mustEmail_ok_iff s "Email", rfl, by decide, by decide, rfl, by decide, by decide⟩

/-- C8: with a configured secret, the sheet logger's auth gate passes a
request exactly when its Authorization header is the literal Bearer
prefix followed by that secret; every other request is answered 401
unauthorized with no token exchange and no sheet append performed. -/
theorem c8_sheet_auth (tok : String) (hdr : Option String) (body : Option Value)
    (ap : Bool) :
    ((hdr.getD "" ≠ "Bearer " ++ tok) →
       sheetLogPost (some tok) hdr body ap = (401, SheetOutcome.unauthorized, false)) ∧
    ((sheetLogPost (some tok) hdr body ap).2.1 ≠ SheetOutcome.unauthorized ↔
       hdr.getD "" = "Bearer " ++ tok) := by
  unfold sheetLogPost templateStr
  constructor
  · intro hne
    rw [if_pos (by simpa using hne)]
  · by_cases he : hdr.getD "" = "Bearer " ++ tok
    · rw [if_neg (by simp [he])]
      cases body with
      | none => simp [he]
      | some b => cases ap <;> simp [he]
    · rw [if_pos (by simpa using he)]
      simp [he]

/-- C8, witness: a wrong bearer value is rejected with 401 and the append
path is never reached. -/
theorem c8_sheet_auth_witness :
    sheetLogPost (some "s3cret") (some "Bearer nope") none false
      = (401, SheetOutcome.unauthorized, false) :=
  (c8_sheet_auth "s3cret" (some "Bearer nope") none false).1 (by decide)

/-- C10: with API_TOKEN unset the comparison is against the template
stringification Bearer undefined, so exactly the header Bearer undefined
passes the gate, and such a request reaches the token-exchange and
sheet-append path rather than being answered 401. -/
theorem c10_sheet_undefined_token (hdr : Option String) (body : Value) (ap : Bool) :
    ((sheetLogPost none hdr (some body) ap).2.1 ≠ SheetOutcome.unauthorized ↔
      hdr.getD "" = "Bearer undefined") ∧
    (sheetLogPost none (some "Bearer undefined") (some body) ap).2.2 = true ∧
    (sheetLogPost none (some "Bearer undefined") (some body) ap).1 ≠ 401 := by
  unfold sheetLogPost templateStr
  refine ⟨?_, ?_, ?_⟩
  · by_cases he : hdr.getD "" = "Bearer undefined"
    · rw [if_neg (by simp [he])]
      cases ap <;> simp [he]
    · rw [if_pos (by simpa using he)]
      simp [he]
  · rw [if_neg (by decide)]
    cases ap <;> simp
  · rw [if_neg (by decide)]
    cases ap <;> simp

end Ops
